import Mathlib

/-!
Shallow embedding of `src/MPC.cpp` (model-predictive trajectory controller).

Conventions:
* C++ `double` values are modelled as real numbers (`ℝ`); the one constant whose
  value depends on floating-point rounding (`num_states_in_latency`) is computed
  over `ℚ`, where `0.1 / 0.05` is exact, matching the exact double computation.
* The flat decision/bound vectors written by index loops are modelled as
  functions `ℕ → ℝ` built from an all-zero base by the same sequence of writes
  the source performs (`writeRange` models a `for` loop writing one value over
  an index range, `writeFun` a loop writing an index-dependent value, `writeAt`
  a single `v[k] = e` assignment); the *last* write in program order is the
  *outermost* wrapper.
* The C++ vector accesses of `MPC::Solve` and `FG_eval::operator()` are also
  given a second, checked embedding over `List ℝ` in which every element access
  goes through `l[i]?` (`Option`-returning indexing), for the access-safety
  claims.
-/

/-- Horizon length; the source selects the `MPC_PARAMS_72MPH` branch
(`#define MPC_PARAMS_72MPH`), so `constexpr size_t N = 10.;`. -/
def N : ℕ := 10

/-- Timestep duration, `constexpr double dt = 0.05;` (72MPH branch).
Kept in `ℚ` so that the latency-step computation below is exact, and cast to
`ℝ` in the dynamics formulas. -/
def dt : ℚ := 0.05

/-- `const int MPC::num_states_in_latency = static_cast<int>(0.1 / dt + 0.5);`
(latency is 100 ms; the cast truncates a positive value, i.e. takes the floor).
In double arithmetic `0.1 / 0.05` is exactly `2.0`, so the rational computation
agrees with the source. -/
def num_states_in_latency : ℕ := (⌊(0.1 : ℚ) / dt + 0.5⌋).toNat

/-- `constexpr double Lf = 2.67;`. -/
def Lf : ℝ := 2.67

/-- `constexpr double ref_cte = 0;`. -/
def ref_cte : ℝ := 0

/-- `constexpr double ref_epsi = 0;`. -/
def ref_epsi : ℝ := 0

/-- `constexpr double ref_v = 75;` (the `MPC_PARAMS_72MPH` branch is the one
selected by the `#define` at the top of the source). -/
def ref_v : ℝ := 75

/-- `constexpr double coeff_cte = 1.;` (72MPH branch). -/
def coeff_cte : ℝ := 1

/-- `constexpr double coeff_epsi = 1.;` (72MPH branch). -/
def coeff_epsi : ℝ := 1

/-- `constexpr double coeff_v = 1.;` (72MPH branch). -/
def coeff_v : ℝ := 1

/-- `constexpr double coeff_derivative_delta = 500;` (72MPH branch). -/
def coeff_derivative_delta : ℝ := 500

/-- `constexpr double coeff_derivative_a = 1.;` (72MPH branch). -/
def coeff_derivative_a : ℝ := 1

/-- `constexpr double coeff_penalize_delta = 200;` (72MPH branch). -/
def coeff_penalize_delta : ℝ := 200

/-- `constexpr double coeff_penalize_a = 1.;` (72MPH branch). -/
def coeff_penalize_a : ℝ := 1

/-- Modelled from the spec: the steering bound constant `max_delta` is declared
in `MPC.h`, which is not under `src/`; the spec fixes it as a configured
physical steering-angle limit, and the source comment at its use site gives the
value `0.436332` (25 degrees in radians). -/
def max_delta : ℝ := 0.436332

/-- `size_t x_start = 0;`. -/
def x_start : ℕ := 0

/-- `size_t y_start = x_start + N;`. -/
def y_start : ℕ := x_start + N

/-- `size_t psi_start = y_start + N;`. -/
def psi_start : ℕ := y_start + N

/-- `size_t v_start = psi_start + N;`. -/
def v_start : ℕ := psi_start + N

/-- `size_t cte_start = v_start + N;`. -/
def cte_start : ℕ := v_start + N

/-- `size_t epsi_start = cte_start + N;`. -/
def epsi_start : ℕ := cte_start + N

/-- `size_t delta_start = epsi_start + N;`. -/
def delta_start : ℕ := epsi_start + N

/-- `size_t a_start = delta_start + N - 1;`. -/
def a_start : ℕ := delta_start + N - 1

/-- `size_t n_vars = N * 6 + (N - 1) * 2;`. -/
def n_vars : ℕ := N * 6 + (N - 1) * 2

/-- `size_t n_constraints = N * 6;`. -/
def n_constraints : ℕ := N * 6

/-- Model of a loop `for (i = lo; i < hi; i++) v[i] = val;` applied on top of a
previous contents function `f`. -/
def writeRange (lo hi : ℕ) (val : ℝ) (f : ℕ → ℝ) : ℕ → ℝ :=
  fun i => if lo ≤ i ∧ i < hi then val else f i

/-- Model of a loop `for (i = lo; i < hi; i++) v[i] = g(i);` applied on top of
a previous contents function `f`. -/
def writeFun (lo hi : ℕ) (g : ℕ → ℝ) (f : ℕ → ℝ) : ℕ → ℝ :=
  fun i => if lo ≤ i ∧ i < hi then g i else f i

/-- Model of a single assignment `v[k] = val;` applied on top of a previous
contents function `f`. -/
def writeAt (k : ℕ) (val : ℝ) (f : ℕ → ℝ) : ℕ → ℝ :=
  fun i => if i = k then val else f i

/-- The initial decision vector built by `MPC::Solve`: all entries zeroed by a
loop over `[0, n_vars)`, then the six block-start entries set to the supplied
state scalars (source lines 245-256). -/
def vars_init (x y psi v cte epsi : ℝ) : ℕ → ℝ :=
  writeAt epsi_start epsi
    (writeAt cte_start cte
      (writeAt v_start v
        (writeAt psi_start psi
          (writeAt y_start y
            (writeAt x_start x
              (writeRange 0 n_vars 0 (fun _ => 0)))))))

/-- The variable lower bounds built by `MPC::Solve` for retained actuation
`(sd, a)`: `-1.0e19` for non-actuators, `-max_delta` for steering slots then
the first `num_states_in_latency` steering slots overwritten with `sd`,
`-1.0` for acceleration slots then the first `num_states_in_latency`
acceleration slots overwritten with `a` (source lines 258-294). -/
def vars_lowerbound (sd a : ℝ) : ℕ → ℝ :=
  writeRange a_start (a_start + num_states_in_latency) a
    (writeRange a_start n_vars (-1.0)
      (writeRange delta_start (delta_start + num_states_in_latency) sd
        (writeRange delta_start a_start (-max_delta)
          (writeRange 0 delta_start (-1.0e19) (fun _ => 0)))))

/-- The variable upper bounds built by `MPC::Solve`, mirroring
`vars_lowerbound` with the positive limits (source lines 258-294). -/
def vars_upperbound (sd a : ℝ) : ℕ → ℝ :=
  writeRange a_start (a_start + num_states_in_latency) a
    (writeRange a_start n_vars 1.0
      (writeRange delta_start (delta_start + num_states_in_latency) sd
        (writeRange delta_start a_start max_delta
          (writeRange 0 delta_start 1.0e19 (fun _ => 0)))))

/-- The constraint lower bounds built by `MPC::Solve`: zeroed over
`[0, n_constraints)`, then the six block-start entries set to the supplied
state scalars (source lines 299-310). -/
def constraints_lowerbound (x y psi v cte epsi : ℝ) : ℕ → ℝ :=
  writeAt epsi_start epsi
    (writeAt cte_start cte
      (writeAt v_start v
        (writeAt psi_start psi
          (writeAt y_start y
            (writeAt x_start x
              (writeRange 0 n_constraints 0 (fun _ => 0)))))))

/-- The constraint upper bounds built by `MPC::Solve`; the source writes the
same values as for the lower bounds (source lines 299-304 and 312-317). -/
def constraints_upperbound (x y psi v cte epsi : ℝ) : ℕ → ℝ :=
  writeAt epsi_start epsi
    (writeAt cte_start cte
      (writeAt v_start v
        (writeAt psi_start psi
          (writeAt y_start y
            (writeAt x_start x
              (writeRange 0 n_constraints 0 (fun _ => 0)))))))

/-- The degree-3 polynomial `f0` of `FG_eval::operator()` (source line 180):
`coeffs[0] + coeffs[1]*x + coeffs[2]*x^2 + coeffs[3]*x^3`. -/
def poly3 (coeffs : ℕ → ℝ) (x : ℝ) : ℝ :=
  coeffs 0 + coeffs 1 * x + coeffs 2 * x ^ 2 + coeffs 3 * x ^ 3

/-- Modelled from the spec: `Utils::poly3_derivative` is declared in a header
that is not under `src/`; the spec fixes the analytic derivative as
`f'(x) = c1 + 2*c2*x + 3*c3*x^2`. -/
def poly3_derivative (coeffs : ℕ → ℝ) (x : ℝ) : ℝ :=
  coeffs 1 + 2 * coeffs 2 * x + 3 * coeffs 3 * x ^ 2

/-- Transition residual for `x` written by `FG_eval::operator()` at
`fg[2 + x_start + i]` (source line 193). -/
noncomputable def xResid (vars : ℕ → ℝ) (i : ℕ) : ℝ :=
  vars (x_start + i + 1) -
    (vars (x_start + i) + vars (v_start + i) * Real.cos (vars (psi_start + i)) * (dt : ℝ))

/-- Transition residual for `y` at `fg[2 + y_start + i]` (source line 194). -/
noncomputable def yResid (vars : ℕ → ℝ) (i : ℕ) : ℝ :=
  vars (y_start + i + 1) -
    (vars (y_start + i) + vars (v_start + i) * Real.sin (vars (psi_start + i)) * (dt : ℝ))

/-- Transition residual for `psi` at `fg[2 + psi_start + i]` (source line
195): `psi1 - (psi0 + v0 * delta0 / Lf * dt)`. -/
noncomputable def psiResid (vars : ℕ → ℝ) (i : ℕ) : ℝ :=
  vars (psi_start + i + 1) -
    (vars (psi_start + i) + vars (v_start + i) * vars (delta_start + i) / Lf * (dt : ℝ))

/-- Transition residual for `v` at `fg[2 + v_start + i]` (source line 196). -/
def vResid (vars : ℕ → ℝ) (i : ℕ) : ℝ :=
  vars (v_start + i + 1) - (vars (v_start + i) + vars (a_start + i) * (dt : ℝ))

/-- Transition residual for `cte` at `fg[2 + cte_start + i]` (source line
197): `cte1 - ((f0 - y0) + (v0 * sin(epsi0) * dt))`. -/
noncomputable def cteResid (coeffs vars : ℕ → ℝ) (i : ℕ) : ℝ :=
  vars (cte_start + i + 1) -
    ((poly3 coeffs (vars (x_start + i)) - vars (y_start + i)) +
      (vars (v_start + i) * Real.sin (vars (epsi_start + i)) * (dt : ℝ)))

/-- Transition residual for `epsi` at `fg[2 + epsi_start + i]` (source line
198): `epsi1 - ((psi0 - psides0) + v0 * delta0 / Lf * dt)` with
`psides0 = atan(poly3_derivative(coeffs, x0))` (source line 181). -/
noncomputable def epsiResid (coeffs vars : ℕ → ℝ) (i : ℕ) : ℝ :=
  vars (epsi_start + i + 1) -
    ((vars (psi_start + i) - Real.arctan (poly3_derivative coeffs (vars (x_start + i)))) +
      vars (v_start + i) * vars (delta_start + i) / Lf * (dt : ℝ))

/-- The cost accumulated into `fg[0]` by `FG_eval::operator()` (source lines
119-138): three sequential loops adding the tracking terms (`i < N`), the
actuator-magnitude terms (`i < N-1`) and the actuator-smoothness terms
(`i < N-2`) to an accumulator initialized with `fg[0] = 0`. -/
def fg0 (vars : ℕ → ℝ) : ℝ :=
  (List.range (N - 2)).foldl
    (fun acc i =>
      acc + coeff_derivative_delta * (vars (delta_start + i + 1) - vars (delta_start + i)) ^ 2
          + coeff_derivative_a * (vars (a_start + i + 1) - vars (a_start + i)) ^ 2)
    ((List.range (N - 1)).foldl
      (fun acc i =>
        acc + coeff_penalize_delta * (vars (delta_start + i)) ^ 2
            + coeff_penalize_a * (vars (a_start + i)) ^ 2)
      ((List.range N).foldl
        (fun acc i =>
          acc + coeff_cte * (vars (cte_start + i) - ref_cte) ^ 2
              + coeff_epsi * (vars (epsi_start + i) - ref_epsi) ^ 2
              + coeff_v * (vars (v_start + i) - ref_v) ^ 2)
        0))

/-- The full `fg` output array of `FG_eval::operator()` as a function of the
output index: the cost is written at `fg[0]`, the six initial-constraint
entries at `fg[1 + k_start]` (source lines 150-155), and the transition loop
writes `fg[2 + k_start + i]` for `i < N - 1` and each of the six components
(source lines 158-199; the six components' write ranges are pairwise
disjoint, so composing them as nested layers reproduces the loop's writes).
The outermost wrapper is the last write in program order. -/
noncomputable def fgFun (coeffs vars : ℕ → ℝ) : ℕ → ℝ :=
  writeFun (2 + epsi_start) (1 + epsi_start + N) (fun j => epsiResid coeffs vars (j - (2 + epsi_start)))
    (writeFun (2 + cte_start) (1 + cte_start + N) (fun j => cteResid coeffs vars (j - (2 + cte_start)))
      (writeFun (2 + v_start) (1 + v_start + N) (fun j => vResid vars (j - (2 + v_start)))
        (writeFun (2 + psi_start) (1 + psi_start + N) (fun j => psiResid vars (j - (2 + psi_start)))
          (writeFun (2 + y_start) (1 + y_start + N) (fun j => yResid vars (j - (2 + y_start)))
            (writeFun (2 + x_start) (1 + x_start + N) (fun j => xResid vars (j - (2 + x_start)))
              (writeAt (1 + epsi_start) (vars epsi_start)
                (writeAt (1 + cte_start) (vars cte_start)
                  (writeAt (1 + v_start) (vars v_start)
                    (writeAt (1 + psi_start) (vars psi_start)
                      (writeAt (1 + y_start) (vars y_start)
                        (writeAt (1 + x_start) (vars x_start)
                          (writeAt 0 (fg0 vars) (fun _ => 0)))))))))))))

/-- The 8-element vector returned by `MPC::Solve` (source lines 376-379):
`{ solution.x[x_start+1], ..., solution.x[delta_start+1], solution.x[a_start+1] }`,
as a function of the solver's returned solution vector. -/
def Solve_return (sol : ℕ → ℝ) : List ℝ :=
  [sol (x_start + 1), sol (y_start + 1), sol (psi_start + 1), sol (v_start + 1),
   sol (cte_start + 1), sol (epsi_start + 1), sol (delta_start + 1), sol (a_start + 1)]

/-- The value `MPC::Solve` stores into the retained member `steering_delta_`
(source line 358): `solution.x[delta_start + num_states_in_latency]`. -/
def Solve_stored_steering (sol : ℕ → ℝ) : ℝ := sol (delta_start + num_states_in_latency)

/-- The value `MPC::Solve` stores into the retained member `a_` (source line
359): `solution.x[a_start + num_states_in_latency]`. -/
def Solve_stored_a (sol : ℕ → ℝ) : ℝ := sol (a_start + num_states_in_latency)

/-- The predicted-path x buffer written by `MPC::Solve` (source lines
371-374): `pred_path_x_[i-1] = solution.x[x_start + i]` for `i` in `[1, N)`. -/
def pred_path_x (sol : ℕ → ℝ) : List ℝ :=
  (List.range (N - 1)).map fun i => sol (x_start + i + 1)

/-- The predicted-path y buffer written by `MPC::Solve` (source lines
371-374). -/
def pred_path_y (sol : ℕ → ℝ) : List ℝ :=
  (List.range (N - 1)).map fun i => sol (y_start + i + 1)

/-- The status value reported by `CppAD::ipopt::solve`; the source only ever
compares it against `success`, so we model it as `success` plus an arbitrary
family of failure kinds. -/
inductive SolveStatus where
  | success : SolveStatus
  | failure : ℕ → SolveStatus

/-- The comparison `solution.status == CppAD::ipopt::solve_result::success`. -/
def status_ok : SolveStatus → Bool
  | SolveStatus.success => true
  | SolveStatus.failure _ => false

/-- Everything `MPC::Solve` does with the solver result (source lines
346-379): it computes `ok &= (status == success)` — a value that is never
consulted afterwards — then unconditionally updates the retained actuation
from indices `num_states_in_latency` past the actuation block starts,
overwrites the predicted-path buffers, and builds the 8-element return
vector. Output: ((new `steering_delta_`, new `a_`), (pred x, pred y),
returned vector). -/
def Solve_outputs (status : SolveStatus) (sol : ℕ → ℝ) :
    (ℝ × ℝ) × (List ℝ × List ℝ) × List ℝ :=
  let ok : Bool := true && status_ok status
  ((Solve_stored_steering sol, Solve_stored_a sol),
   (pred_path_x sol, pred_path_y sol),
   Solve_return sol)

/-- A solution vector respecting the variable bounds built by `MPC::Solve`
with retained actuation `(sd, a)`. -/
def InBounds (sd a : ℝ) (sol : ℕ → ℝ) : Prop :=
  ∀ i, vars_lowerbound sd a i ≤ sol i ∧ sol i ≤ vars_upperbound sd a i

/-- A decision vector satisfying, at every transition `i < N - 1`, the six
discretized model equations the spec states for the transition constraints
(`x_{i+1} = x_i + v_i cos(psi_i) dt`, ..., `psides_i = atan(f'(x_i))`). -/
def dynConsistent (coeffs vars : ℕ → ℝ) : Prop :=
  ∀ i, i < N - 1 →
    vars (x_start + i + 1)
        = vars (x_start + i) + vars (v_start + i) * Real.cos (vars (psi_start + i)) * (dt : ℝ) ∧
    vars (y_start + i + 1)
        = vars (y_start + i) + vars (v_start + i) * Real.sin (vars (psi_start + i)) * (dt : ℝ) ∧
    vars (psi_start + i + 1)
        = vars (psi_start + i) + vars (v_start + i) / Lf * vars (delta_start + i) * (dt : ℝ) ∧
    vars (v_start + i + 1)
        = vars (v_start + i) + vars (a_start + i) * (dt : ℝ) ∧
    vars (cte_start + i + 1)
        = (poly3 coeffs (vars (x_start + i)) - vars (y_start + i)) +
            vars (v_start + i) * Real.sin (vars (epsi_start + i)) * (dt : ℝ) ∧
    vars (epsi_start + i + 1)
        = (vars (psi_start + i) - Real.arctan (poly3_derivative coeffs (vars (x_start + i)))) +
            vars (v_start + i) / Lf * vars (delta_start + i) * (dt : ℝ)

/-- The all-zero vector, used as a concrete evaluation input. -/
def zfun : ℕ → ℝ := fun _ => 0

/-- The all-one vector, used as a concrete evaluation input. -/
def onefun : ℕ → ℝ := fun _ => 1

/-- A concrete solution vector: zero everywhere except the steering slot at
index `delta_start + 2` (the first steering slot past the latency window),
which holds `0.3`; it respects the variable bounds for retained actuation
`(0, 0)`. -/
noncomputable def sol0 : ℕ → ℝ := fun i => if i = delta_start + 2 then 0.3 else 0

/-- The six residual values of one transition step, in block order. -/
def Resid6 : Type := ℝ × ℝ × ℝ × ℝ × ℝ × ℝ

/-- Checked embedding of one iteration of the transition-constraint loop of
`FG_eval::operator()` (source lines 158-199): every vector element access of
the iteration, in program order, performed with `Option`-returning indexing
(`l[i]?`); the final coefficient reads are the four accesses
`coeffs[0] ... coeffs[3]` of the `f0` expression at source line 180, reused
for the spec-modelled `poly3_derivative` (which reads the same entries
`coeffs[1..3]`). -/
noncomputable def transStep (coeffs vars : List ℝ) (i : ℕ) : Option Resid6 :=
  (vars[x_start + i + 1]?).bind fun x1 =>
  (vars[y_start + i + 1]?).bind fun y1 =>
  (vars[psi_start + i + 1]?).bind fun psi1 =>
  (vars[v_start + i + 1]?).bind fun v1 =>
  (vars[cte_start + i + 1]?).bind fun cte1 =>
  (vars[epsi_start + i + 1]?).bind fun epsi1 =>
  (vars[x_start + i]?).bind fun x0 =>
  (vars[y_start + i]?).bind fun y0 =>
  (vars[psi_start + i]?).bind fun psi0 =>
  (vars[v_start + i]?).bind fun v0 =>
  (vars[cte_start + i]?).bind fun cte0 =>
  (vars[epsi_start + i]?).bind fun epsi0 =>
  (vars[delta_start + i]?).bind fun delta0 =>
  (vars[a_start + i]?).bind fun a0 =>
  (coeffs[0]?).bind fun c0 =>
  (coeffs[1]?).bind fun c1 =>
  (coeffs[2]?).bind fun c2 =>
  (coeffs[3]?).bind fun c3 =>
  let f0 := c0 + c1 * x0 + c2 * x0 ^ 2 + c3 * x0 ^ 3
  let psides0 := Real.arctan (c1 + 2 * c2 * x0 + 3 * c3 * x0 ^ 2)
  some (x1 - (x0 + v0 * Real.cos psi0 * (dt : ℝ)),
        y1 - (y0 + v0 * Real.sin psi0 * (dt : ℝ)),
        psi1 - (psi0 + v0 * delta0 / Lf * (dt : ℝ)),
        v1 - (v0 + a0 * (dt : ℝ)),
        cte1 - ((f0 - y0) + (v0 * Real.sin epsi0 * (dt : ℝ))),
        epsi1 - ((psi0 - psides0) + v0 * delta0 / Lf * (dt : ℝ)))

/-- Checked embedding of the whole transition loop: the residuals of steps
`0, ..., k-1`, in loop order; `none` as soon as any access of any iteration
is out of bounds. -/
noncomputable def seqTrans (coeffs vars : List ℝ) : ℕ → Option (List Resid6)
  | 0 => some []
  | k + 1 =>
    (seqTrans coeffs vars k).bind fun prev =>
    (transStep coeffs vars k).bind fun r =>
    some (prev ++ [r])

/-- Checked embedding of the tracking-cost loop of `FG_eval::operator()`
(source lines 122-126), accumulating the first `k` iterations. -/
noncomputable def costRefChecked (vars : List ℝ) : ℕ → Option ℝ
  | 0 => some 0
  | k + 1 =>
    (costRefChecked vars k).bind fun acc =>
    (vars[cte_start + k]?).bind fun cte =>
    (vars[epsi_start + k]?).bind fun epsi =>
    (vars[v_start + k]?).bind fun v =>
    some (acc + coeff_cte * (cte - ref_cte) ^ 2 + coeff_epsi * (epsi - ref_epsi) ^ 2
              + coeff_v * (v - ref_v) ^ 2)

/-- Checked embedding of the actuator-magnitude cost loop (source lines
129-132). -/
noncomputable def costActChecked (vars : List ℝ) : ℕ → Option ℝ
  | 0 => some 0
  | k + 1 =>
    (costActChecked vars k).bind fun acc =>
    (vars[delta_start + k]?).bind fun delta =>
    (vars[a_start + k]?).bind fun a =>
    some (acc + coeff_penalize_delta * delta ^ 2 + coeff_penalize_a * a ^ 2)

/-- Checked embedding of the actuator-smoothness cost loop (source lines
135-138). -/
noncomputable def costSmoothChecked (vars : List ℝ) : ℕ → Option ℝ
  | 0 => some 0
  | k + 1 =>
    (costSmoothChecked vars k).bind fun acc =>
    (vars[delta_start + k + 1]?).bind fun d1 =>
    (vars[delta_start + k]?).bind fun d0 =>
    (vars[a_start + k + 1]?).bind fun a1 =>
    (vars[a_start + k]?).bind fun a0 =>
    some (acc + coeff_derivative_delta * (d1 - d0) ^ 2 + coeff_derivative_a * (a1 - a0) ^ 2)

/-- Checked embedding of the six initial-constraint reads of
`FG_eval::operator()` (source lines 150-155). -/
noncomputable def initConstrChecked (vars : List ℝ) : Option Resid6 :=
  (vars[x_start]?).bind fun x =>
  (vars[y_start]?).bind fun y =>
  (vars[psi_start]?).bind fun psi =>
  (vars[v_start]?).bind fun v =>
  (vars[cte_start]?).bind fun cte =>
  (vars[epsi_start]?).bind fun epsi =>
  some (x, y, psi, v, cte, epsi)

/-- Checked embedding of `FG_eval::operator()` over `List ℝ`: all element
accesses in program order (cost loops, initial constraints, transition loop)
through `Option`-returning indexing; produces the cost, the initial
constraint outputs and the transition residuals, or `none` if any access is
out of bounds. -/
noncomputable def FG_eval_checked (coeffs vars : List ℝ) : Option (ℝ × Resid6 × List Resid6) :=
  (costRefChecked vars N).bind fun c1 =>
  (costActChecked vars (N - 1)).bind fun c2 =>
  (costSmoothChecked vars (N - 2)).bind fun c3 =>
  (initConstrChecked vars).bind fun ini =>
  (seqTrans coeffs vars (N - 1)).bind fun ts =>
  some (c1 + c2 + c3, ini, ts)

/-- The problem data `MPC::Solve` hands to the external solver. -/
structure Problem where
  vars : ℕ → ℝ
  vlb : ℕ → ℝ
  vub : ℕ → ℝ
  clb : ℕ → ℝ
  cub : ℕ → ℝ
  fgCoeffs : List ℝ

/-- Checked embedding of the problem-building part of `MPC::Solve` (source
lines 216-344, up to the solver call): the six state reads `x0[0] ... x0[5]`
(lines 224-229) with `Option`-returning indexing, then the decision vector,
variable bounds and constraint bounds, and the `FG_eval` object, which
captures the coefficient vector by copy without accessing its elements
(line 320). No other input access occurs before the solver call; in
particular `coeffs` is never validated or read. -/
def Solve_build (state coeffs : List ℝ) (sd a : ℝ) : Option Problem :=
  (state[0]?).bind fun x =>
  (state[1]?).bind fun y =>
  (state[2]?).bind fun psi =>
  (state[3]?).bind fun v =>
  (state[4]?).bind fun cte =>
  (state[5]?).bind fun epsi =>
  some { vars := vars_init x y psi v cte epsi
         vlb := vars_lowerbound sd a
         vub := vars_upperbound sd a
         clb := constraints_lowerbound x y psi v cte epsi
         cub := constraints_upperbound x y psi v cte epsi
         fgCoeffs := coeffs }

theorem N_eq : N = 10 := rfl

theorem x_start_eq : x_start = 0 := rfl

theorem y_start_eq : y_start = 10 := rfl

theorem psi_start_eq : psi_start = 20 := rfl

theorem v_start_eq : v_start = 30 := rfl

theorem cte_start_eq : cte_start = 40 := rfl

theorem epsi_start_eq : epsi_start = 50 := rfl

theorem delta_start_eq : delta_start = 60 := rfl

theorem a_start_eq : a_start = 69 := rfl

theorem n_vars_eq : n_vars = 78 := rfl

theorem n_constraints_eq : n_constraints = 60 := rfl

theorem floor_of_latency_steps : ((0.1 : ℚ) / dt + 0.5) = 5 / 2 := by
  norm_num [dt]

theorem floor_five_halves : ⌊(5 / 2 : ℚ)⌋ = 2 := by
  rw [Int.floor_eq_iff]; norm_num

theorem nsl_eq : num_states_in_latency = 2 := by
  unfold num_states_in_latency
  rw [floor_of_latency_steps, floor_five_halves]
  rfl

/-- C9 counterexample: the configuration selected by the source's
`#define MPC_PARAMS_72MPH` sets `ref_v = 75`, so the claimed simultaneous
values `N = 10`, `dt = 0.05`, `ref_v = 85` do not hold. -/
theorem ref_v_not_85 : ¬ (N = 10 ∧ dt = 0.05 ∧ ref_v = (85 : ℝ)) := by
  intro h
  have h85 := h.2.2
  norm_num [ref_v] at h85

/-- C9 (amended): in the compiled configuration selected in the source
(`MPC_PARAMS_72MPH`), the constants are simultaneously `N = 10`,
`dt = 0.05` and `ref_v = 75` (not 85, which belongs to the unselected
fallback branch). -/
theorem selected_configuration_constants : N = 10 ∧ dt = 0.05 ∧ ref_v = (75 : ℝ) :=
  ⟨rfl, rfl, rfl⟩

/-- C3: after variable-bound construction, for every `i < num_states_in_latency`
the lower and upper variable bounds at `delta_start + i` both equal the
retained steering command and those at `a_start + i` both equal the retained
acceleration command; moreover `num_states_in_latency` equals
`round(latency_seconds / dt)` and evaluates to 2 for latency 0.1 s and
`dt = 0.05`. -/
theorem latency_bounds_hold (sd a : ℝ) (i : ℕ) (h : i < num_states_in_latency) :
    vars_lowerbound sd a (delta_start + i) = sd ∧
    vars_upperbound sd a (delta_start + i) = sd ∧
    vars_lowerbound sd a (a_start + i) = a ∧
    vars_upperbound sd a (a_start + i) = a ∧
    (num_states_in_latency : ℤ) = round ((0.1 : ℚ) / dt) ∧
    num_states_in_latency = 2 := by
  have h2 : i < 2 := nsl_eq ▸ h
  have hround : (num_states_in_latency : ℤ) = round ((0.1 : ℚ) / dt) := by
    rw [nsl_eq, round_eq, show (0.1 : ℚ) / dt = 2 by norm_num [dt],
        show (2 : ℚ) + 1 / 2 = 5 / 2 by norm_num, floor_five_halves]
    rfl
  refine ⟨?_, ?_, ?_, ?_, hround, nsl_eq⟩ <;>
    · simp only [vars_lowerbound, vars_upperbound, writeRange, nsl_eq, delta_start_eq,
        a_start_eq, n_vars_eq]
      split_ifs <;> first | rfl | omega

/-- C3 witness: at `i = 0` with retained commands `(1, 2)`, the steering
lower bound at `delta_start` equals the retained steering command. -/
theorem latency_bounds_hold_witness :
    0 < num_states_in_latency ∧ vars_lowerbound 1 2 (delta_start + 0) = 1 :=
  ⟨by simp [nsl_eq], (latency_bounds_hold 1 2 0 (by simp [nsl_eq])).1⟩

/-- C7: the solver status flag has no effect on any output of `MPC::Solve`:
for every status value (success or any failure kind) and every solution
vector, the retained-state update, the predicted-path buffers and the
returned 8-element vector are identical; extraction is total (never aborts). -/
theorem extraction_ignores_status (s1 s2 : SolveStatus) (sol : ℕ → ℝ) :
    Solve_outputs s1 sol = Solve_outputs s2 sol := rfl

/-- C5: the initial decision vector is all zeros except the six block-start
entries, which hold the supplied state scalars; the constraint lower and
upper bound vectors are all zeros except those same six entries, which both
hold the supplied state scalars. -/
theorem initial_guess_and_constraint_bounds (x y psi v cte epsi : ℝ) :
    (vars_init x y psi v cte epsi x_start = x ∧
     vars_init x y psi v cte epsi y_start = y ∧
     vars_init x y psi v cte epsi psi_start = psi ∧
     vars_init x y psi v cte epsi v_start = v ∧
     vars_init x y psi v cte epsi cte_start = cte ∧
     vars_init x y psi v cte epsi epsi_start = epsi) ∧
    (∀ i, i < n_vars → i ≠ x_start → i ≠ y_start → i ≠ psi_start → i ≠ v_start →
      i ≠ cte_start → i ≠ epsi_start → vars_init x y psi v cte epsi i = 0) ∧
    (constraints_lowerbound x y psi v cte epsi x_start = x ∧
     constraints_lowerbound x y psi v cte epsi y_start = y ∧
     constraints_lowerbound x y psi v cte epsi psi_start = psi ∧
     constraints_lowerbound x y psi v cte epsi v_start = v ∧
     constraints_lowerbound x y psi v cte epsi cte_start = cte ∧
     constraints_lowerbound x y psi v cte epsi epsi_start = epsi ∧
     constraints_upperbound x y psi v cte epsi x_start = x ∧
     constraints_upperbound x y psi v cte epsi y_start = y ∧
     constraints_upperbound x y psi v cte epsi psi_start = psi ∧
     constraints_upperbound x y psi v cte epsi v_start = v ∧
     constraints_upperbound x y psi v cte epsi cte_start = cte ∧
     constraints_upperbound x y psi v cte epsi epsi_start = epsi) ∧
    (∀ i, i < n_constraints → i ≠ x_start → i ≠ y_start → i ≠ psi_start → i ≠ v_start →
      i ≠ cte_start → i ≠ epsi_start →
      constraints_lowerbound x y psi v cte epsi i = 0 ∧
      constraints_upperbound x y psi v cte epsi i = 0) := by
  refine ⟨⟨?_, ?_, ?_, ?_, ?_, ?_⟩, ?_, ⟨?_, ?_, ?_, ?_, ?_, ?_, ?_, ?_, ?_, ?_, ?_, ?_⟩, ?_⟩
  case _ => simp [vars_init, writeAt, writeRange, x_start_eq, y_start_eq, psi_start_eq,
    v_start_eq, cte_start_eq, epsi_start_eq, n_vars_eq]
  case _ => simp [vars_init, writeAt, writeRange, x_start_eq, y_start_eq, psi_start_eq,
    v_start_eq, cte_start_eq, epsi_start_eq, n_vars_eq]
  case _ => simp [vars_init, writeAt, writeRange, x_start_eq, y_start_eq, psi_start_eq,
    v_start_eq, cte_start_eq, epsi_start_eq, n_vars_eq]
  case _ => simp [vars_init, writeAt, writeRange, x_start_eq, y_start_eq, psi_start_eq,
    v_start_eq, cte_start_eq, epsi_start_eq, n_vars_eq]
  case _ => simp [vars_init, writeAt, writeRange, x_start_eq, y_start_eq, psi_start_eq,
    v_start_eq, cte_start_eq, epsi_start_eq, n_vars_eq]
  case _ => simp [vars_init, writeAt, writeRange, x_start_eq, y_start_eq, psi_start_eq,
    v_start_eq, cte_start_eq, epsi_start_eq, n_vars_eq]
  case _ =>
    intro i hi hx hy hpsi hv hcte hepsi
    simp only [x_start_eq, y_start_eq, psi_start_eq, v_start_eq, cte_start_eq,
      epsi_start_eq] at hx hy hpsi hv hcte hepsi
    simp only [n_vars_eq] at hi
    simp only [vars_init, writeAt, writeRange, x_start_eq, y_start_eq, psi_start_eq,
      v_start_eq, cte_start_eq, epsi_start_eq, n_vars_eq]
    split_ifs <;> first | rfl | omega
  case _ => simp [constraints_lowerbound, writeAt, writeRange, x_start_eq, y_start_eq,
    psi_start_eq, v_start_eq, cte_start_eq, epsi_start_eq, n_constraints_eq]
  case _ => simp [constraints_lowerbound, writeAt, writeRange, x_start_eq, y_start_eq,
    psi_start_eq, v_start_eq, cte_start_eq, epsi_start_eq, n_constraints_eq]
  case _ => simp [constraints_lowerbound, writeAt, writeRange, x_start_eq, y_start_eq,
    psi_start_eq, v_start_eq, cte_start_eq, epsi_start_eq, n_constraints_eq]
  case _ => simp [constraints_lowerbound, writeAt, writeRange, x_start_eq, y_start_eq,
    psi_start_eq, v_start_eq, cte_start_eq, epsi_start_eq, n_constraints_eq]
  case _ => simp [constraints_lowerbound, writeAt, writeRange, x_start_eq, y_start_eq,
    psi_start_eq, v_start_eq, cte_start_eq, epsi_start_eq, n_constraints_eq]
  case _ => simp [constraints_lowerbound, writeAt, writeRange, x_start_eq, y_start_eq,
    psi_start_eq, v_start_eq, cte_start_eq, epsi_start_eq, n_constraints_eq]
  case _ => simp [constraints_upperbound, writeAt, writeRange, x_start_eq, y_start_eq,
    psi_start_eq, v_start_eq, cte_start_eq, epsi_start_eq, n_constraints_eq]
  case _ => simp [constraints_upperbound, writeAt, writeRange, x_start_eq, y_start_eq,
    psi_start_eq, v_start_eq, cte_start_eq, epsi_start_eq, n_constraints_eq]
  case _ => simp [constraints_upperbound, writeAt, writeRange, x_start_eq, y_start_eq,
    psi_start_eq, v_start_eq, cte_start_eq, epsi_start_eq, n_constraints_eq]
  case _ => simp [constraints_upperbound, writeAt, writeRange, x_start_eq, y_start_eq,
    psi_start_eq, v_start_eq, cte_start_eq, epsi_start_eq, n_constraints_eq]
  case _ => simp [constraints_upperbound, writeAt, writeRange, x_start_eq, y_start_eq,
    psi_start_eq, v_start_eq, cte_start_eq, epsi_start_eq, n_constraints_eq]
  case _ => simp [constraints_upperbound, writeAt, writeRange, x_start_eq, y_start_eq,
    psi_start_eq, v_start_eq, cte_start_eq, epsi_start_eq, n_constraints_eq]
  case _ =>
    intro i hi hx hy hpsi hv hcte hepsi
    simp only [x_start_eq, y_start_eq, psi_start_eq, v_start_eq, cte_start_eq,
      epsi_start_eq] at hx hy hpsi hv hcte hepsi
    simp only [n_constraints_eq] at hi
    constructor <;>
      · simp only [constraints_lowerbound, constraints_upperbound, writeAt, writeRange,
          x_start_eq, y_start_eq, psi_start_eq, v_start_eq, cte_start_eq, epsi_start_eq,
          n_constraints_eq]
        split_ifs <;> first | rfl | omega

/-- C5 witness: with state `(1,2,3,4,5,6)` the decision-vector entry at
`x_start` is 1 and the (non-block-start) entry at index 7 is 0. -/
theorem initial_guess_and_constraint_bounds_witness :
    vars_init 1 2 3 4 5 6 x_start = 1 ∧ vars_init 1 2 3 4 5 6 7 = 0 :=
  ⟨(initial_guess_and_constraint_bounds 1 2 3 4 5 6).1.1,
   (initial_guess_and_constraint_bounds 1 2 3 4 5 6).2.1 7 (by decide) (by decide)
     (by decide) (by decide) (by decide) (by decide) (by decide)⟩

/-- C1 counterexample: for the concrete bound-respecting solution vector
`sol0` (zero except `0.3` at index `delta_start + 2`), the `delta` element of
the returned 8-element vector — `solution.x[delta_start + 1]` — differs from
the value `Solve` stores into `steering_delta_`, which is
`solution.x[delta_start + num_states_in_latency]` with
`num_states_in_latency = 2`. -/
theorem solve_return_delta_ne_stored :
    (Solve_return sol0).getD 6 0 ≠ Solve_stored_steering sol0 := by
  simp only [Solve_return, Solve_stored_steering, sol0, nsl_eq, x_start_eq, y_start_eq,
    psi_start_eq, v_start_eq, cte_start_eq, epsi_start_eq, delta_start_eq, a_start_eq]
  norm_num

/-- C1 (amended): the `delta` and `a` elements of the returned vector are the
solution entries at index 1 past `delta_start` and `a_start` (the timestep-1
actuation), while `Solve` stores into `steering_delta_` and `a_` the entries
at index `num_states_in_latency = 2`; index 1 lies inside the latency-held
window, so whenever the solution respects the variable bounds the returned
`delta`/`a` equal the PREVIOUSLY retained commands `(sd, a)`, not the newly
stored ones. -/
theorem solve_return_and_retained_indices (sd a : ℝ) (sol : ℕ → ℝ)
    (hb : InBounds sd a sol) :
    (Solve_return sol).getD 6 0 = sol (delta_start + 1) ∧
    (Solve_return sol).getD 7 0 = sol (a_start + 1) ∧
    Solve_stored_steering sol = sol (delta_start + num_states_in_latency) ∧
    Solve_stored_a sol = sol (a_start + num_states_in_latency) ∧
    num_states_in_latency = 2 ∧
    (Solve_return sol).getD 6 0 = sd ∧
    (Solve_return sol).getD 7 0 = a := by
  have hlb61 : vars_lowerbound sd a (delta_start + 1) = sd := by
    simp only [vars_lowerbound, writeRange, nsl_eq, delta_start_eq, a_start_eq, n_vars_eq]
    norm_num
  have hub61 : vars_upperbound sd a (delta_start + 1) = sd := by
    simp only [vars_upperbound, writeRange, nsl_eq, delta_start_eq, a_start_eq, n_vars_eq]
    norm_num
  have hlb70 : vars_lowerbound sd a (a_start + 1) = a := by
    simp only [vars_lowerbound, writeRange, nsl_eq, delta_start_eq, a_start_eq, n_vars_eq]
    norm_num
  have hub70 : vars_upperbound sd a (a_start + 1) = a := by
    simp only [vars_upperbound, writeRange, nsl_eq, delta_start_eq, a_start_eq, n_vars_eq]
    norm_num
  have hdel : sol (delta_start + 1) = sd :=
    le_antisymm (hub61 ▸ (hb (delta_start + 1)).2) (hlb61 ▸ (hb (delta_start + 1)).1)
  have hacc : sol (a_start + 1) = a :=
    le_antisymm (hub70 ▸ (hb (a_start + 1)).2) (hlb70 ▸ (hb (a_start + 1)).1)
  refine ⟨rfl, rfl, rfl, rfl, nsl_eq, ?_, ?_⟩
  · simpa [Solve_return] using hdel
  · simpa [Solve_return] using hacc

/-- C1 witness: the all-zero solution vector respects the bounds for retained
actuation `(0, 0)`, and the returned `delta` element then equals the retained
steering command 0. -/
theorem solve_return_and_retained_indices_witness :
    InBounds 0 0 zfun ∧ (Solve_return zfun).getD 6 0 = 0 := by
  have hb : InBounds 0 0 zfun := by
    intro i
    constructor <;>
      · simp only [zfun, vars_lowerbound, vars_upperbound, writeRange]
        split_ifs <;> norm_num [max_delta]
  exact ⟨hb, (solve_return_and_retained_indices 0 0 zfun hb).2.2.2.2.2.1⟩

theorem writeRange_hit (lo hi : ℕ) (val : ℝ) (f : ℕ → ℝ) (j : ℕ) (h1 : lo ≤ j)
    (h2 : j < hi) : writeRange lo hi val f j = val := if_pos ⟨h1, h2⟩

theorem writeRange_miss (lo hi : ℕ) (val : ℝ) (f : ℕ → ℝ) (j : ℕ)
    (h : ¬(lo ≤ j ∧ j < hi)) : writeRange lo hi val f j = f j := if_neg h

theorem writeFun_hit (lo hi : ℕ) (g f : ℕ → ℝ) (j : ℕ) (h1 : lo ≤ j) (h2 : j < hi) :
    writeFun lo hi g f j = g j := if_pos ⟨h1, h2⟩

theorem writeFun_miss (lo hi : ℕ) (g f : ℕ → ℝ) (j : ℕ) (h : ¬(lo ≤ j ∧ j < hi)) :
    writeFun lo hi g f j = f j := if_neg h

theorem writeAt_hit (k : ℕ) (val : ℝ) (f : ℕ → ℝ) : writeAt k val f k = val := if_pos rfl

theorem writeAt_miss (k : ℕ) (val : ℝ) (f : ℕ → ℝ) (j : ℕ) (h : j ≠ k) :
    writeAt k val f j = f j := if_neg h

theorem fgFun_x_trans (coeffs vars : ℕ → ℝ) (i : ℕ) (h : i < N - 1) :
    fgFun coeffs vars (2 + x_start + i) = xResid vars i := by
  have h9 : i < 9 := by simpa [N_eq] using h
  unfold fgFun
  rw [writeFun_miss _ _ _ _ _ (by simp only [x_start_eq, epsi_start_eq, N_eq]; omega),
      writeFun_miss _ _ _ _ _ (by simp only [x_start_eq, cte_start_eq, N_eq]; omega),
      writeFun_miss _ _ _ _ _ (by simp only [x_start_eq, v_start_eq, N_eq]; omega),
      writeFun_miss _ _ _ _ _ (by simp only [x_start_eq, psi_start_eq, N_eq]; omega),
      writeFun_miss _ _ _ _ _ (by simp only [x_start_eq, y_start_eq, N_eq]; omega),
      writeFun_hit _ _ _ _ _ (by omega) (by simp only [x_start_eq, N_eq]; omega),
      Nat.add_sub_cancel_left]

theorem fgFun_y_trans (coeffs vars : ℕ → ℝ) (i : ℕ) (h : i < N - 1) :
    fgFun coeffs vars (2 + y_start + i) = yResid vars i := by
  have h9 : i < 9 := by simpa [N_eq] using h
  unfold fgFun
  rw [writeFun_miss _ _ _ _ _ (by simp only [y_start_eq, epsi_start_eq, N_eq]; omega),
      writeFun_miss _ _ _ _ _ (by simp only [y_start_eq, cte_start_eq, N_eq]; omega),
      writeFun_miss _ _ _ _ _ (by simp only [y_start_eq, v_start_eq, N_eq]; omega),
      writeFun_miss _ _ _ _ _ (by simp only [y_start_eq, psi_start_eq, N_eq]; omega),
      writeFun_hit _ _ _ _ _ (by omega) (by simp only [y_start_eq, N_eq]; omega),
      Nat.add_sub_cancel_left]

theorem fgFun_psi_trans (coeffs vars : ℕ → ℝ) (i : ℕ) (h : i < N - 1) :
    fgFun coeffs vars (2 + psi_start + i) = psiResid vars i := by
  have h9 : i < 9 := by simpa [N_eq] using h
  unfold fgFun
  rw [writeFun_miss _ _ _ _ _ (by simp only [psi_start_eq, epsi_start_eq, N_eq]; omega),
      writeFun_miss _ _ _ _ _ (by simp only [psi_start_eq, cte_start_eq, N_eq]; omega),
      writeFun_miss _ _ _ _ _ (by simp only [psi_start_eq, v_start_eq, N_eq]; omega),
      writeFun_hit _ _ _ _ _ (by omega) (by simp only [psi_start_eq, N_eq]; omega),
      Nat.add_sub_cancel_left]

theorem fgFun_v_trans (coeffs vars : ℕ → ℝ) (i : ℕ) (h : i < N - 1) :
    fgFun coeffs vars (2 + v_start + i) = vResid vars i := by
  have h9 : i < 9 := by simpa [N_eq] using h
  unfold fgFun
  rw [writeFun_miss _ _ _ _ _ (by simp only [v_start_eq, epsi_start_eq, N_eq]; omega),
      writeFun_miss _ _ _ _ _ (by simp only [v_start_eq, cte_start_eq, N_eq]; omega),
      writeFun_hit _ _ _ _ _ (by omega) (by simp only [v_start_eq, N_eq]; omega),
      Nat.add_sub_cancel_left]

theorem fgFun_cte_trans (coeffs vars : ℕ → ℝ) (i : ℕ) (h : i < N - 1) :
    fgFun coeffs vars (2 + cte_start + i) = cteResid coeffs vars i := by
  have h9 : i < 9 := by simpa [N_eq] using h
  unfold fgFun
  rw [writeFun_miss _ _ _ _ _ (by simp only [cte_start_eq, epsi_start_eq, N_eq]; omega),
      writeFun_hit _ _ _ _ _ (by omega) (by simp only [cte_start_eq, N_eq]; omega),
      Nat.add_sub_cancel_left]

theorem fgFun_epsi_trans (coeffs vars : ℕ → ℝ) (i : ℕ) (h : i < N - 1) :
    fgFun coeffs vars (2 + epsi_start + i) = epsiResid coeffs vars i := by
  have h9 : i < 9 := by simpa [N_eq] using h
  unfold fgFun
  rw [writeFun_hit _ _ _ _ _ (by omega) (by simp only [epsi_start_eq, N_eq]; omega),
      Nat.add_sub_cancel_left]

theorem fgFun_at_zero (coeffs vars : ℕ → ℝ) : fgFun coeffs vars 0 = fg0 vars := by
  unfold fgFun
  rw [writeFun_miss _ _ _ _ _ (by simp only [epsi_start_eq, N_eq]; omega),
      writeFun_miss _ _ _ _ _ (by simp only [cte_start_eq, N_eq]; omega),
      writeFun_miss _ _ _ _ _ (by simp only [v_start_eq, N_eq]; omega),
      writeFun_miss _ _ _ _ _ (by simp only [psi_start_eq, N_eq]; omega),
      writeFun_miss _ _ _ _ _ (by simp only [y_start_eq, N_eq]; omega),
      writeFun_miss _ _ _ _ _ (by simp only [x_start_eq, N_eq]; omega),
      writeAt_miss _ _ _ _ (by simp only [epsi_start_eq]; omega),
      writeAt_miss _ _ _ _ (by simp only [cte_start_eq]; omega),
      writeAt_miss _ _ _ _ (by simp only [v_start_eq]; omega),
      writeAt_miss _ _ _ _ (by simp only [psi_start_eq]; omega),
      writeAt_miss _ _ _ _ (by simp only [y_start_eq]; omega),
      writeAt_miss _ _ _ _ (by simp only [x_start_eq]; omega),
      writeAt_hit]

theorem foldl_add3_eq (A B C : ℕ → ℝ) : ∀ (l : List ℕ) (init : ℝ),
    l.foldl (fun acc i => acc + A i + B i + C i) init
      = init + (l.map fun i => A i + B i + C i).sum := by
  intro l
  induction l with
  | nil => intro init; simp
  | cons a t ih =>
    intro init
    simp only [List.foldl_cons, List.map_cons, List.sum_cons, ih]
    ring

theorem foldl_add2_eq (A B : ℕ → ℝ) : ∀ (l : List ℕ) (init : ℝ),
    l.foldl (fun acc i => acc + A i + B i) init
      = init + (l.map fun i => A i + B i).sum := by
  intro l
  induction l with
  | nil => intro init; simp
  | cons a t ih =>
    intro init
    simp only [List.foldl_cons, List.map_cons, List.sum_cons, ih]
    ring

/-- C6: the scalar cost `fg[0]` equals the sum, over every timestep
`i ∈ [0,N)`, of `w_cte*(cte_i - 0)^2 + w_epsi*(epsi_i - 0)^2 +
w_v*(v_i - ref_v)^2`, plus over every `i ∈ [0,N-1)` of
`w_delta*delta_i^2 + w_a*a_i^2`, plus over every `i ∈ [0,N-2)` of
`w_ddelta*(delta_{i+1}-delta_i)^2 + w_da*(a_{i+1}-a_i)^2`, with all
weights the configured non-negative constants. -/
theorem cost_decomposition (coeffs vars : ℕ → ℝ) :
    fgFun coeffs vars 0 =
      ((List.range N).map fun i =>
          coeff_cte * (vars (cte_start + i) - 0) ^ 2 +
          coeff_epsi * (vars (epsi_start + i) - 0) ^ 2 +
          coeff_v * (vars (v_start + i) - ref_v) ^ 2).sum +
      ((List.range (N - 1)).map fun i =>
          coeff_penalize_delta * vars (delta_start + i) ^ 2 +
          coeff_penalize_a * vars (a_start + i) ^ 2).sum +
      ((List.range (N - 2)).map fun i =>
          coeff_derivative_delta * (vars (delta_start + i + 1) - vars (delta_start + i)) ^ 2 +
          coeff_derivative_a * (vars (a_start + i + 1) - vars (a_start + i)) ^ 2).sum ∧
    0 ≤ coeff_cte ∧ 0 ≤ coeff_epsi ∧ 0 ≤ coeff_v ∧ 0 ≤ coeff_penalize_delta ∧
    0 ≤ coeff_penalize_a ∧ 0 ≤ coeff_derivative_delta ∧ 0 ≤ coeff_derivative_a := by
  constructor
  · rw [fgFun_at_zero]
    unfold fg0
    simp only [ref_cte, ref_epsi]
    rw [foldl_add3_eq, foldl_add2_eq, foldl_add2_eq]
    ring
  · refine ⟨?_, ?_, ?_, ?_, ?_, ?_, ?_⟩ <;>
      norm_num [coeff_cte, coeff_epsi, coeff_v, coeff_penalize_delta, coeff_penalize_a,
        coeff_derivative_delta, coeff_derivative_a]

/-- C4 counterexample: with all decision-vector entries equal to 1 and
supplied initial x-value 1, the constraint output at the timestep-0 x offset
is the bare variable `vars[x_start] = 1`, not the claimed difference
`vars[x_start] - 1 = 0`. -/
theorem initial_residual_not_shifted :
    fgFun zfun onefun (1 + x_start) ≠ onefun x_start - 1 := by
  unfold fgFun
  rw [writeFun_miss _ _ _ _ _ (by simp only [x_start_eq, epsi_start_eq, N_eq]; omega),
      writeFun_miss _ _ _ _ _ (by simp only [x_start_eq, cte_start_eq, N_eq]; omega),
      writeFun_miss _ _ _ _ _ (by simp only [x_start_eq, v_start_eq, N_eq]; omega),
      writeFun_miss _ _ _ _ _ (by simp only [x_start_eq, psi_start_eq, N_eq]; omega),
      writeFun_miss _ _ _ _ _ (by simp only [x_start_eq, y_start_eq, N_eq]; omega),
      writeFun_miss _ _ _ _ _ (by simp only [x_start_eq, N_eq]; omega),
      writeAt_miss _ _ _ _ (by simp only [x_start_eq, epsi_start_eq]; omega),
      writeAt_miss _ _ _ _ (by simp only [x_start_eq, cte_start_eq]; omega),
      writeAt_miss _ _ _ _ (by simp only [x_start_eq, v_start_eq]; omega),
      writeAt_miss _ _ _ _ (by simp only [x_start_eq, psi_start_eq]; omega),
      writeAt_miss _ _ _ _ (by simp only [x_start_eq, y_start_eq]; omega),
      writeAt_hit]
  norm_num [onefun]

/-- C4 (amended): the six constraint outputs at the block-start offsets for
timestep 0 (`fg[1 + x_start]` through `fg[1 + epsi_start]`) are the bare
timestep-0 variables themselves; the supplied initial state enters through
the constraint bounds pinned to it, not through a subtraction inside the
residual, which never sees the initial state. -/
theorem initial_residuals_bare_variables (coeffs vars : ℕ → ℝ) :
    fgFun coeffs vars (1 + x_start) = vars x_start ∧
    fgFun coeffs vars (1 + y_start) = vars y_start ∧
    fgFun coeffs vars (1 + psi_start) = vars psi_start ∧
    fgFun coeffs vars (1 + v_start) = vars v_start ∧
    fgFun coeffs vars (1 + cte_start) = vars cte_start ∧
    fgFun coeffs vars (1 + epsi_start) = vars epsi_start := by
  refine ⟨?_, ?_, ?_, ?_, ?_, ?_⟩
  · unfold fgFun
    rw [writeFun_miss _ _ _ _ _ (by simp only [x_start_eq, epsi_start_eq, N_eq]; omega),
        writeFun_miss _ _ _ _ _ (by simp only [x_start_eq, cte_start_eq, N_eq]; omega),
        writeFun_miss _ _ _ _ _ (by simp only [x_start_eq, v_start_eq, N_eq]; omega),
        writeFun_miss _ _ _ _ _ (by simp only [x_start_eq, psi_start_eq, N_eq]; omega),
        writeFun_miss _ _ _ _ _ (by simp only [x_start_eq, y_start_eq, N_eq]; omega),
        writeFun_miss _ _ _ _ _ (by simp only [x_start_eq, N_eq]; omega),
        writeAt_miss _ _ _ _ (by simp only [x_start_eq, epsi_start_eq]; omega),
        writeAt_miss _ _ _ _ (by simp only [x_start_eq, cte_start_eq]; omega),
        writeAt_miss _ _ _ _ (by simp only [x_start_eq, v_start_eq]; omega),
        writeAt_miss _ _ _ _ (by simp only [x_start_eq, psi_start_eq]; omega),
        writeAt_miss _ _ _ _ (by simp only [x_start_eq, y_start_eq]; omega),
        writeAt_hit]
  · unfold fgFun
    rw [writeFun_miss _ _ _ _ _ (by simp only [y_start_eq, epsi_start_eq, N_eq]; omega),
        writeFun_miss _ _ _ _ _ (by simp only [y_start_eq, cte_start_eq, N_eq]; omega),
        writeFun_miss _ _ _ _ _ (by simp only [y_start_eq, v_start_eq, N_eq]; omega),
        writeFun_miss _ _ _ _ _ (by simp only [y_start_eq, psi_start_eq, N_eq]; omega),
        writeFun_miss _ _ _ _ _ (by simp only [y_start_eq, N_eq]; omega),
        writeFun_miss _ _ _ _ _ (by simp only [y_start_eq, x_start_eq, N_eq]; omega),
        writeAt_miss _ _ _ _ (by simp only [y_start_eq, epsi_start_eq]; omega),
        writeAt_miss _ _ _ _ (by simp only [y_start_eq, cte_start_eq]; omega),
        writeAt_miss _ _ _ _ (by simp only [y_start_eq, v_start_eq]; omega),
        writeAt_miss _ _ _ _ (by simp only [y_start_eq, psi_start_eq]; omega),
        writeAt_hit]
  · unfold fgFun
    rw [writeFun_miss _ _ _ _ _ (by simp only [psi_start_eq, epsi_start_eq, N_eq]; omega),
        writeFun_miss _ _ _ _ _ (by simp only [psi_start_eq, cte_start_eq, N_eq]; omega),
        writeFun_miss _ _ _ _ _ (by simp only [psi_start_eq, v_start_eq, N_eq]; omega),
        writeFun_miss _ _ _ _ _ (by simp only [psi_start_eq, N_eq]; omega),
        writeFun_miss _ _ _ _ _ (by simp only [psi_start_eq, y_start_eq, N_eq]; omega),
        writeFun_miss _ _ _ _ _ (by simp only [psi_start_eq, x_start_eq, N_eq]; omega),
        writeAt_miss _ _ _ _ (by simp only [psi_start_eq, epsi_start_eq]; omega),
        writeAt_miss _ _ _ _ (by simp only [psi_start_eq, cte_start_eq]; omega),
        writeAt_miss _ _ _ _ (by simp only [psi_start_eq, v_start_eq]; omega),
        writeAt_hit]
  · unfold fgFun
    rw [writeFun_miss _ _ _ _ _ (by simp only [v_start_eq, epsi_start_eq, N_eq]; omega),
        writeFun_miss _ _ _ _ _ (by simp only [v_start_eq, cte_start_eq, N_eq]; omega),
        writeFun_miss _ _ _ _ _ (by simp only [v_start_eq, N_eq]; omega),
        writeFun_miss _ _ _ _ _ (by simp only [v_start_eq, psi_start_eq, N_eq]; omega),
        writeFun_miss _ _ _ _ _ (by simp only [v_start_eq, y_start_eq, N_eq]; omega),
        writeFun_miss _ _ _ _ _ (by simp only [v_start_eq, x_start_eq, N_eq]; omega),
        writeAt_miss _ _ _ _ (by simp only [v_start_eq, epsi_start_eq]; omega),
        writeAt_miss _ _ _ _ (by simp only [v_start_eq, cte_start_eq]; omega),
        writeAt_hit]
  · unfold fgFun
    rw [writeFun_miss _ _ _ _ _ (by simp only [cte_start_eq, epsi_start_eq, N_eq]; omega),
        writeFun_miss _ _ _ _ _ (by simp only [cte_start_eq, N_eq]; omega),
        writeFun_miss _ _ _ _ _ (by simp only [cte_start_eq, v_start_eq, N_eq]; omega),
        writeFun_miss _ _ _ _ _ (by simp only [cte_start_eq, psi_start_eq, N_eq]; omega),
        writeFun_miss _ _ _ _ _ (by simp only [cte_start_eq, y_start_eq, N_eq]; omega),
        writeFun_miss _ _ _ _ _ (by simp only [cte_start_eq, x_start_eq, N_eq]; omega),
        writeAt_miss _ _ _ _ (by simp only [cte_start_eq, epsi_start_eq]; omega),
        writeAt_hit]
  · unfold fgFun
    rw [writeFun_miss _ _ _ _ _ (by simp only [epsi_start_eq, N_eq]; omega),
        writeFun_miss _ _ _ _ _ (by simp only [epsi_start_eq, cte_start_eq, N_eq]; omega),
        writeFun_miss _ _ _ _ _ (by simp only [epsi_start_eq, v_start_eq, N_eq]; omega),
        writeFun_miss _ _ _ _ _ (by simp only [epsi_start_eq, psi_start_eq, N_eq]; omega),
        writeFun_miss _ _ _ _ _ (by simp only [epsi_start_eq, y_start_eq, N_eq]; omega),
        writeFun_miss _ _ _ _ _ (by simp only [epsi_start_eq, x_start_eq, N_eq]; omega),
        writeAt_hit]

/-- C2: for every decision vector (arbitrary, not assumed feasible) and every
transition index `i < N - 1`, the constraint outputs written by
`FG_eval::operator()` equal the actual next-step variable minus the
model-predicted value for each of the six state components (with the spec's
discretized equations, `f` the degree-3 polynomial over `coeffs` and
`psides_i = atan(f'(x_i))`); consequently any decision vector satisfying
those equations exactly yields all transition residuals equal to zero. -/
theorem fg_transition_residuals (coeffs vars : ℕ → ℝ) :
    (∀ i, i < N - 1 →
      fgFun coeffs vars (2 + x_start + i)
        = vars (x_start + i + 1) -
            (vars (x_start + i) +
              vars (v_start + i) * Real.cos (vars (psi_start + i)) * (dt : ℝ)) ∧
      fgFun coeffs vars (2 + y_start + i)
        = vars (y_start + i + 1) -
            (vars (y_start + i) +
              vars (v_start + i) * Real.sin (vars (psi_start + i)) * (dt : ℝ)) ∧
      fgFun coeffs vars (2 + psi_start + i)
        = vars (psi_start + i + 1) -
            (vars (psi_start + i) +
              vars (v_start + i) / Lf * vars (delta_start + i) * (dt : ℝ)) ∧
      fgFun coeffs vars (2 + v_start + i)
        = vars (v_start + i + 1) - (vars (v_start + i) + vars (a_start + i) * (dt : ℝ)) ∧
      fgFun coeffs vars (2 + cte_start + i)
        = vars (cte_start + i + 1) -
            ((poly3 coeffs (vars (x_start + i)) - vars (y_start + i)) +
              vars (v_start + i) * Real.sin (vars (epsi_start + i)) * (dt : ℝ)) ∧
      fgFun coeffs vars (2 + epsi_start + i)
        = vars (epsi_start + i + 1) -
            ((vars (psi_start + i) -
                Real.arctan (poly3_derivative coeffs (vars (x_start + i)))) +
              vars (v_start + i) / Lf * vars (delta_start + i) * (dt : ℝ))) ∧
    (dynConsistent coeffs vars → ∀ i, i < N - 1 →
      fgFun coeffs vars (2 + x_start + i) = 0 ∧
      fgFun coeffs vars (2 + y_start + i) = 0 ∧
      fgFun coeffs vars (2 + psi_start + i) = 0 ∧
      fgFun coeffs vars (2 + v_start + i) = 0 ∧
      fgFun coeffs vars (2 + cte_start + i) = 0 ∧
      fgFun coeffs vars (2 + epsi_start + i) = 0) := by
  constructor
  · intro i hi
    rw [fgFun_x_trans coeffs vars i hi, fgFun_y_trans coeffs vars i hi,
        fgFun_psi_trans coeffs vars i hi, fgFun_v_trans coeffs vars i hi,
        fgFun_cte_trans coeffs vars i hi, fgFun_epsi_trans coeffs vars i hi]
    unfold xResid yResid psiResid vResid cteResid epsiResid
    refine ⟨rfl, rfl, by ring, rfl, rfl, by ring⟩
  · intro h i hi
    obtain ⟨h1, h2, h3, h4, h5, h6⟩ := h i hi
    rw [fgFun_x_trans coeffs vars i hi, fgFun_y_trans coeffs vars i hi,
        fgFun_psi_trans coeffs vars i hi, fgFun_v_trans coeffs vars i hi,
        fgFun_cte_trans coeffs vars i hi, fgFun_epsi_trans coeffs vars i hi]
    unfold xResid yResid psiResid vResid cteResid epsiResid
    refine ⟨?_, ?_, ?_, ?_, ?_, ?_⟩
    · rw [h1]; ring
    · rw [h2]; ring
    · rw [h3]; ring
    · rw [h4]; ring
    · rw [h5]; ring
    · rw [h6]; ring

/-- C2 witness: the all-zero decision vector with all-zero coefficients
satisfies the discretized dynamics exactly, and the x-transition residual at
step 0 is then 0. -/
theorem fg_transition_residuals_witness :
    dynConsistent zfun zfun ∧ fgFun zfun zfun (2 + x_start + 0) = 0 := by
  have h : dynConsistent zfun zfun := by
    intro i hi
    refine ⟨?_, ?_, ?_, ?_, ?_, ?_⟩ <;>
      simp [zfun, poly3, poly3_derivative]
  exact ⟨h, ((fg_transition_residuals zfun zfun).2 h 0 (by decide)).1⟩

theorem costRefChecked_isSome (vars : List ℝ) (hv : n_vars ≤ vars.length) :
    ∀ k, k ≤ N → (costRefChecked vars k).isSome := by
  have h78 : 78 ≤ vars.length := by simpa [n_vars_eq] using hv
  intro k
  induction k with
  | zero => intro _; simp [costRefChecked]
  | succ k ih =>
    intro hk
    obtain ⟨acc, hacc⟩ := Option.isSome_iff_exists.mp (ih (Nat.le_of_succ_le hk))
    have h10 : k < 10 := by simp only [N_eq] at hk; omega
    have e1 := List.getElem?_eq_getElem
      (show cte_start + k < vars.length by simp only [cte_start_eq]; omega)
    have e2 := List.getElem?_eq_getElem
      (show epsi_start + k < vars.length by simp only [epsi_start_eq]; omega)
    have e3 := List.getElem?_eq_getElem
      (show v_start + k < vars.length by simp only [v_start_eq]; omega)
    simp [costRefChecked, hacc, e1, e2, e3]

theorem costActChecked_isSome (vars : List ℝ) (hv : n_vars ≤ vars.length) :
    ∀ k, k ≤ N - 1 → (costActChecked vars k).isSome := by
  have h78 : 78 ≤ vars.length := by simpa [n_vars_eq] using hv
  intro k
  induction k with
  | zero => intro _; simp [costActChecked]
  | succ k ih =>
    intro hk
    obtain ⟨acc, hacc⟩ := Option.isSome_iff_exists.mp (ih (Nat.le_of_succ_le hk))
    have h9 : k < 9 := by simp only [N_eq] at hk; omega
    have e1 := List.getElem?_eq_getElem
      (show delta_start + k < vars.length by simp only [delta_start_eq]; omega)
    have e2 := List.getElem?_eq_getElem
      (show a_start + k < vars.length by simp only [a_start_eq]; omega)
    simp [costActChecked, hacc, e1, e2]

theorem costSmoothChecked_isSome (vars : List ℝ) (hv : n_vars ≤ vars.length) :
    ∀ k, k ≤ N - 2 → (costSmoothChecked vars k).isSome := by
  have h78 : 78 ≤ vars.length := by simpa [n_vars_eq] using hv
  intro k
  induction k with
  | zero => intro _; simp [costSmoothChecked]
  | succ k ih =>
    intro hk
    obtain ⟨acc, hacc⟩ := Option.isSome_iff_exists.mp (ih (Nat.le_of_succ_le hk))
    have h8 : k < 8 := by simp only [N_eq] at hk; omega
    have e1 := List.getElem?_eq_getElem
      (show delta_start + k + 1 < vars.length by simp only [delta_start_eq]; omega)
    have e2 := List.getElem?_eq_getElem
      (show delta_start + k < vars.length by simp only [delta_start_eq]; omega)
    have e3 := List.getElem?_eq_getElem
      (show a_start + k + 1 < vars.length by simp only [a_start_eq]; omega)
    have e4 := List.getElem?_eq_getElem
      (show a_start + k < vars.length by simp only [a_start_eq]; omega)
    simp [costSmoothChecked, hacc, e1, e2, e3, e4]

theorem initConstrChecked_isSome (vars : List ℝ) (hv : n_vars ≤ vars.length) :
    (initConstrChecked vars).isSome := by
  have h78 : 78 ≤ vars.length := by simpa [n_vars_eq] using hv
  have e1 := List.getElem?_eq_getElem
    (show x_start < vars.length by simp only [x_start_eq]; omega)
  have e2 := List.getElem?_eq_getElem
    (show y_start < vars.length by simp only [y_start_eq]; omega)
  have e3 := List.getElem?_eq_getElem
    (show psi_start < vars.length by simp only [psi_start_eq]; omega)
  have e4 := List.getElem?_eq_getElem
    (show v_start < vars.length by simp only [v_start_eq]; omega)
  have e5 := List.getElem?_eq_getElem
    (show cte_start < vars.length by simp only [cte_start_eq]; omega)
  have e6 := List.getElem?_eq_getElem
    (show epsi_start < vars.length by simp only [epsi_start_eq]; omega)
  simp [initConstrChecked, e1, e2, e3, e4, e5, e6]

theorem transStep_isSome (coeffs vars : List ℝ) (i : ℕ) (hc : 4 ≤ coeffs.length)
    (hv : n_vars ≤ vars.length) (hi : i < N - 1) : (transStep coeffs vars i).isSome := by
  have h78 : 78 ≤ vars.length := by simpa [n_vars_eq] using hv
  have h9 : i < 9 := by simpa [N_eq] using hi
  have e01 := List.getElem?_eq_getElem
    (show x_start + i + 1 < vars.length by simp only [x_start_eq]; omega)
  have e02 := List.getElem?_eq_getElem
    (show y_start + i + 1 < vars.length by simp only [y_start_eq]; omega)
  have e03 := List.getElem?_eq_getElem
    (show psi_start + i + 1 < vars.length by simp only [psi_start_eq]; omega)
  have e04 := List.getElem?_eq_getElem
    (show v_start + i + 1 < vars.length by simp only [v_start_eq]; omega)
  have e05 := List.getElem?_eq_getElem
    (show cte_start + i + 1 < vars.length by simp only [cte_start_eq]; omega)
  have e06 := List.getElem?_eq_getElem
    (show epsi_start + i + 1 < vars.length by simp only [epsi_start_eq]; omega)
  have e07 := List.getElem?_eq_getElem
    (show x_start + i < vars.length by simp only [x_start_eq]; omega)
  have e08 := List.getElem?_eq_getElem
    (show y_start + i < vars.length by simp only [y_start_eq]; omega)
  have e09 := List.getElem?_eq_getElem
    (show psi_start + i < vars.length by simp only [psi_start_eq]; omega)
  have e10 := List.getElem?_eq_getElem
    (show v_start + i < vars.length by simp only [v_start_eq]; omega)
  have e11 := List.getElem?_eq_getElem
    (show cte_start + i < vars.length by simp only [cte_start_eq]; omega)
  have e12 := List.getElem?_eq_getElem
    (show epsi_start + i < vars.length by simp only [epsi_start_eq]; omega)
  have e13 := List.getElem?_eq_getElem
    (show delta_start + i < vars.length by simp only [delta_start_eq]; omega)
  have e14 := List.getElem?_eq_getElem
    (show a_start + i < vars.length by simp only [a_start_eq]; omega)
  have f0 := List.getElem?_eq_getElem (show 0 < coeffs.length by omega)
  have f1 := List.getElem?_eq_getElem (show 1 < coeffs.length by omega)
  have f2 := List.getElem?_eq_getElem (show 2 < coeffs.length by omega)
  have f3 := List.getElem?_eq_getElem (show 3 < coeffs.length by omega)
  simp [transStep, e01, e02, e03, e04, e05, e06, e07, e08, e09, e10, e11, e12, e13, e14,
    f0, f1, f2, f3]

theorem seqTrans_isSome (coeffs vars : List ℝ) (hc : 4 ≤ coeffs.length)
    (hv : n_vars ≤ vars.length) : ∀ k, k ≤ N - 1 → (seqTrans coeffs vars k).isSome := by
  intro k
  induction k with
  | zero => intro _; simp [seqTrans]
  | succ k ih =>
    intro hk
    obtain ⟨prev, hprev⟩ := Option.isSome_iff_exists.mp (ih (Nat.le_of_succ_le hk))
    obtain ⟨r, hr⟩ := Option.isSome_iff_exists.mp (transStep_isSome coeffs vars k hc hv hk)
    simp [seqTrans, hprev, hr]

theorem FG_eval_checked_isSome (coeffs vars : List ℝ) (hc : 4 ≤ coeffs.length)
    (hv : n_vars ≤ vars.length) : (FG_eval_checked coeffs vars).isSome := by
  obtain ⟨c1, h1⟩ := Option.isSome_iff_exists.mp (costRefChecked_isSome vars hv N le_rfl)
  obtain ⟨c2, h2⟩ := Option.isSome_iff_exists.mp (costActChecked_isSome vars hv (N - 1) le_rfl)
  obtain ⟨c3, h3⟩ :=
    Option.isSome_iff_exists.mp (costSmoothChecked_isSome vars hv (N - 2) le_rfl)
  obtain ⟨ini, h4⟩ := Option.isSome_iff_exists.mp (initConstrChecked_isSome vars hv)
  obtain ⟨ts, h5⟩ := Option.isSome_iff_exists.mp (seqTrans_isSome coeffs vars hc hv (N - 1) le_rfl)
  simp [FG_eval_checked, h1, h2, h3, h4, h5]

theorem transStep_eq_none (coeffs vars : List ℝ) (i : ℕ) (hv : n_vars ≤ vars.length)
    (hc : coeffs.length < 4) (hi : i < N - 1) : transStep coeffs vars i = none := by
  have h78 : 78 ≤ vars.length := by simpa [n_vars_eq] using hv
  have h9 : i < 9 := by simpa [N_eq] using hi
  have e01 := List.getElem?_eq_getElem
    (show x_start + i + 1 < vars.length by simp only [x_start_eq]; omega)
  have e02 := List.getElem?_eq_getElem
    (show y_start + i + 1 < vars.length by simp only [y_start_eq]; omega)
  have e03 := List.getElem?_eq_getElem
    (show psi_start + i + 1 < vars.length by simp only [psi_start_eq]; omega)
  have e04 := List.getElem?_eq_getElem
    (show v_start + i + 1 < vars.length by simp only [v_start_eq]; omega)
  have e05 := List.getElem?_eq_getElem
    (show cte_start + i + 1 < vars.length by simp only [cte_start_eq]; omega)
  have e06 := List.getElem?_eq_getElem
    (show epsi_start + i + 1 < vars.length by simp only [epsi_start_eq]; omega)
  have e07 := List.getElem?_eq_getElem
    (show x_start + i < vars.length by simp only [x_start_eq]; omega)
  have e08 := List.getElem?_eq_getElem
    (show y_start + i < vars.length by simp only [y_start_eq]; omega)
  have e09 := List.getElem?_eq_getElem
    (show psi_start + i < vars.length by simp only [psi_start_eq]; omega)
  have e10 := List.getElem?_eq_getElem
    (show v_start + i < vars.length by simp only [v_start_eq]; omega)
  have e11 := List.getElem?_eq_getElem
    (show cte_start + i < vars.length by simp only [cte_start_eq]; omega)
  have e12 := List.getElem?_eq_getElem
    (show epsi_start + i < vars.length by simp only [epsi_start_eq]; omega)
  have e13 := List.getElem?_eq_getElem
    (show delta_start + i < vars.length by simp only [delta_start_eq]; omega)
  have e14 := List.getElem?_eq_getElem
    (show a_start + i < vars.length by simp only [a_start_eq]; omega)
  rcases coeffs with _ | ⟨c0, _ | ⟨c1, _ | ⟨c2, _ | ⟨c3, rest⟩⟩⟩⟩
  · simp [transStep, e01, e02, e03, e04, e05, e06, e07, e08, e09, e10, e11, e12, e13, e14]
  · simp [transStep, e01, e02, e03, e04, e05, e06, e07, e08, e09, e10, e11, e12, e13, e14]
  · simp [transStep, e01, e02, e03, e04, e05, e06, e07, e08, e09, e10, e11, e12, e13, e14]
  · simp [transStep, e01, e02, e03, e04, e05, e06, e07, e08, e09, e10, e11, e12, e13, e14]
  · exfalso
    simp only [List.length_cons] at hc
    omega

theorem seqTrans_eq_none_of (coeffs vars : List ℝ) (hv : n_vars ≤ vars.length)
    (hc : coeffs.length < 4) : ∀ k, k < N - 1 → seqTrans coeffs vars (k + 1) = none := by
  intro k
  induction k with
  | zero =>
    intro h0
    have h1 : seqTrans coeffs vars (0 + 1)
        = (seqTrans coeffs vars 0).bind fun prev =>
            (transStep coeffs vars 0).bind fun r => some (prev ++ [r]) := rfl
    rw [h1, transStep_eq_none coeffs vars 0 hv hc h0]
    rfl
  | succ k ih =>
    intro hk
    have hk' : k < N - 1 := Nat.lt_of_succ_lt hk
    have h1 : seqTrans coeffs vars (k + 1 + 1)
        = (seqTrans coeffs vars (k + 1)).bind fun prev =>
            (transStep coeffs vars (k + 1)).bind fun r => some (prev ++ [r]) := rfl
    rw [h1, ih hk']
    rfl

theorem FG_eval_checked_eq_none (coeffs vars : List ℝ) (hv : n_vars ≤ vars.length)
    (hc : coeffs.length < 4) : FG_eval_checked coeffs vars = none := by
  obtain ⟨c1, h1⟩ := Option.isSome_iff_exists.mp (costRefChecked_isSome vars hv N le_rfl)
  obtain ⟨c2, h2⟩ := Option.isSome_iff_exists.mp (costActChecked_isSome vars hv (N - 1) le_rfl)
  obtain ⟨c3, h3⟩ :=
    Option.isSome_iff_exists.mp (costSmoothChecked_isSome vars hv (N - 2) le_rfl)
  obtain ⟨ini, h4⟩ := Option.isSome_iff_exists.mp (initConstrChecked_isSome vars hv)
  have h5 : seqTrans coeffs vars (N - 1) = none :=
    seqTrans_eq_none_of coeffs vars hv hc 8 (by decide)
  simp [FG_eval_checked, h1, h2, h3, h4, h5]

theorem Solve_build_isSome (state coeffs : List ℝ) (sd a : ℝ) (h : 6 ≤ state.length) :
    (Solve_build state coeffs sd a).isSome = true := by
  have e0 := List.getElem?_eq_getElem (show 0 < state.length by omega)
  have e1 := List.getElem?_eq_getElem (show 1 < state.length by omega)
  have e2 := List.getElem?_eq_getElem (show 2 < state.length by omega)
  have e3 := List.getElem?_eq_getElem (show 3 < state.length by omega)
  have e4 := List.getElem?_eq_getElem (show 4 < state.length by omega)
  have e5 := List.getElem?_eq_getElem (show 5 < state.length by omega)
  simp [Solve_build, e0, e1, e2, e3, e4, e5]

/-- C10: under the preconditions that the state has at least 6 components and
the coefficient vector at least 4, every vector access performed by
`MPC::Solve`'s problem construction and by `FG_eval::operator()` is within
bounds (no `Option`-returning access yields `none`); and `FG_eval` reads
`coeffs[0]` through `coeffs[3]` unconditionally on every evaluation, so a
coefficient vector shorter than 4 makes the checked evaluation fail with an
out-of-bounds access instead of being rejected. -/
theorem access_safety :
    (∀ (state coeffs : List ℝ) (sd a : ℝ), 6 ≤ state.length →
      (Solve_build state coeffs sd a).isSome = true) ∧
    (∀ (coeffs vars : List ℝ), 4 ≤ coeffs.length → n_vars ≤ vars.length →
      (FG_eval_checked coeffs vars).isSome = true) ∧
    (∀ (coeffs vars : List ℝ), n_vars ≤ vars.length → coeffs.length < 4 →
      FG_eval_checked coeffs vars = none) :=
  ⟨fun state coeffs sd a h => Solve_build_isSome state coeffs sd a h,
   fun coeffs vars hc hv => FG_eval_checked_isSome coeffs vars hc hv,
   fun coeffs vars hv hc => FG_eval_checked_eq_none coeffs vars hv hc⟩

/-- C10 witness: with a length-4 coefficient list and a length-78 decision
vector, the checked evaluation of `FG_eval::operator()` performs all its
accesses in bounds. -/
theorem access_safety_witness :
    4 ≤ ([0, 0, 0, 0] : List ℝ).length ∧
    n_vars ≤ (List.replicate 78 (0 : ℝ)).length ∧
    (FG_eval_checked [0, 0, 0, 0] (List.replicate 78 0)).isSome = true :=
  ⟨by simp, by simp [n_vars_eq],
   access_safety.2.1 [0, 0, 0, 0] (List.replicate 78 0) (by simp) (by simp [n_vars_eq])⟩

/-- C8 counterexample: called with a malformed coefficient vector of length 3
(and a well-formed 6-component state), `MPC::Solve` does not reject the input:
the problem construction runs to completion and produces the decision vector,
bounds and solver inputs. -/
theorem solve_build_accepts_short_coeffs :
    (Solve_build [0, 0, 0, 0, 0, 0] [1, 2, 3] 0 0).isSome = true := rfl

/-- C8 (amended): `MPC::Solve` performs no input validation: for any state
with at least 6 components and a coefficient vector of any length it proceeds
to build the decision vector, the bounds and the solver inputs; a wrong-length
coefficient vector is never rejected before building the problem — it only
surfaces later as an out-of-bounds coefficient read inside
`FG_eval::operator()`. -/
theorem solve_build_no_validation (state coeffs : List ℝ) (sd a : ℝ)
    (h : 6 ≤ state.length) : (Solve_build state coeffs sd a).isSome = true :=
  Solve_build_isSome state coeffs sd a h

/-- C8 witness: with a 6-component state and an empty coefficient vector, the
problem is still built. -/
theorem solve_build_no_validation_witness :
    6 ≤ ([1, 2, 3, 4, 5, 6] : List ℝ).length ∧
    (Solve_build [1, 2, 3, 4, 5, 6] [] 1 2).isSome = true :=
  ⟨by simp, solve_build_no_validation [1, 2, 3, 4, 5, 6] [] 1 2 (by simp)⟩
